import Mathlib

/-!
Verification of the Interview Orchestration Core of the new-mockinterview
repository. The frontend TypeScript sources are embedded shallowly: the
Zustand store actions become pure functions on an explicit session record,
the WebSocket message switch becomes a total function over a sum type of
inbound messages, and the silence detector and reconnect logic become
explicit state machines with discrete time. Backend components that exist
only as declarations or callers in the repository (the AI service router,
the session registry, the feedback generator) are modelled from the
design document and marked as such in their doc comments.
-/

namespace MockInterview

/-! ## Data model (frontend/src/types/interview.ts) -/

/-- The `InterviewState` enum of types/interview.ts. -/
inductive InterviewState
  | AI_ASKING
  | AI_SPEAKING
  | WAITING_FOR_USER
  | USER_SPEAKING
  | SILENCE_DETECTED
  | PROCESSING_WITH_GEMINI
  | NEXT_QUESTION
  | INTERVIEW_ENDED
  deriving DecidableEq, Repr

/-- The role field of a transcript entry: `"ai" | "user"`. -/
inductive Role
  | ai
  | user
  deriving DecidableEq, Repr

/-- The `TranscriptEntry` interface of types/interview.ts. Timestamps are
JS numbers used only opaquely by the store; they are embedded as naturals. -/
structure TranscriptEntry where
  id : String
  role : Role
  text : String
  timestamp : Nat
  deriving DecidableEq, Repr

/-- The `InterviewSession` interface of types/interview.ts. The optional
fields `error`, `feedback`, `score` are embedded as `Option`. Scores are JS
numbers; the integral part is all the claims depend on, so `Int` is used. -/
structure InterviewSession where
  interviewId : String
  state : InterviewState
  transcript : List TranscriptEntry
  isActive : Bool
  error : Option String
  feedback : Option String
  score : Option Int
  deriving DecidableEq, Repr

/-! ## Store actions (frontend/src/store/interviewStore.ts)

Zustand `set` merges the given fields into the current state, so every
action becomes a record update on `InterviewSession`. -/

/-- The `initialState` object of interviewStore.ts (optional fields absent). -/
def initialState : InterviewSession :=
  { interviewId := "", state := InterviewState.AI_ASKING, transcript := [],
    isActive := false, error := none, feedback := none, score := none }

/-- `setState` action: `set(\x7b state \x7d)`. -/
def setState (s : InterviewState) (st : InterviewSession) : InterviewSession :=
  { st with state := s }

/-- `addTranscriptEntry` action: `transcript: [...state.transcript, entry]`. -/
def addTranscriptEntry (entry : TranscriptEntry) (st : InterviewSession) : InterviewSession :=
  { st with transcript := st.transcript ++ [entry] }

/-- `startInterview` action. -/
def startInterview (interviewId : String) (st : InterviewSession) : InterviewSession :=
  { st with
      interviewId := interviewId, state := InterviewState.AI_ASKING,
      transcript := [], isActive := true, error := none, feedback := none,
      score := none }

/-- `endInterview` action: unconditionally sets the terminal state and stores
the given feedback and score (both optional parameters in the source). -/
def endInterview (feedback : Option String) (score : Option Int)
    (st : InterviewSession) : InterviewSession :=
  { st with
      state := InterviewState.INTERVIEW_ENDED, isActive := false,
      feedback := feedback, score := score }

/-- `setError` action. -/
def setError (e : Option String) (st : InterviewSession) : InterviewSession :=
  { st with error := e }

/-- `clearError` action. -/
def clearError (st : InterviewSession) : InterviewSession :=
  { st with error := none }

/-- `reset` action: `set(initialState)`; the merge touches only the four
fields present in `initialState`, leaving `error`, `feedback`, `score` as
they were. -/
def resetStore (st : InterviewSession) : InterviewSession :=
  { st with
      interviewId := "", state := InterviewState.AI_ASKING,
      transcript := [], isActive := false }

/-! ## Inbound messages and the onmessage switch (frontend/src/hooks/useWebSocket.ts)

The switch in `ws.onmessage` dispatches on the string `type` field of a
parsed frame. Five of the six `MessageType` values have a case;
`USER_TRANSCRIPT` (a client-to-server type) and any runtime type string
outside the enum fall through the switch with no effect. -/

/-- A parsed inbound frame, one constructor per runtime `type` value the
switch can observe: the five handled cases, the unhandled enum member
`USER_TRANSCRIPT`, and an arbitrary unrecognized type string. -/
inductive ServerMessage
  | connectionAck (message : String)
  | interviewStateMsg (state : InterviewState)
  | aiQuestion (question : String) (timestamp : Nat)
  | interviewEnd (feedback : String) (score : Option Int)
  | errorNotice (error : String) (code : Option String)
  | userTranscriptEcho (transcript : String)
  | otherType (ty : String)
  deriving DecidableEq, Repr

/-- The body of the `switch (message.type)` in `ws.onmessage` (useWebSocket.ts
lines 70-98), acting on the store. `now` is `Date.now()` at processing time,
used for the generated entry id in the `AI_QUESTION` case. -/
def handleMessage (now : Nat) (m : ServerMessage) (st : InterviewSession) :
    InterviewSession :=
  match m with
  | ServerMessage.connectionAck _ => st
  | ServerMessage.interviewStateMsg s => setState s st
  | ServerMessage.aiQuestion q ts =>
      addTranscriptEntry
        { id := "ai-" ++ toString now, role := Role.ai, text := q, timestamp := ts }
        (setState InterviewState.AI_SPEAKING st)
  | ServerMessage.interviewEnd fb sc => endInterview (some fb) sc st
  | ServerMessage.errorNotice e _ => setError (some e) st
  | ServerMessage.userTranscriptEcho _ => st
  | ServerMessage.otherType _ => st

/-- The whole `ws.onmessage` handler: a frame that fails `JSON.parse`
(embedded as `none`) lands in the catch block, which logs and invokes the
`onError` callback without touching the store; a parsed frame goes through
the switch and the `onError` callback is not invoked. The returned flag
records whether `onError` fired. -/
def onMessageEvent (now : Nat) (raw : Option ServerMessage)
    (st : InterviewSession) : InterviewSession × Bool :=
  match raw with
  | none => (st, true)
  | some m => (handleMessage now m st, false)

/-! ## The candidate-answer send path (InterviewRoom `onTranscript` callback)

InterviewRoom wires `useSpeechRecognition` with an `onTranscript` callback
that, when the finalized transcript is non-empty after trimming, sends a
`USER_TRANSCRIPT` frame, appends a candidate entry, and moves the local
state to `PROCESSING_WITH_GEMINI`; otherwise it does nothing. -/

/-- JS `String.prototype.trim()`: the string with whitespace removed from
both ends (embedded structurally on the character list so that it computes). -/
def jsTrim (s : String) : String :=
  String.mk
    (((s.data.dropWhile Char.isWhitespace).reverse.dropWhile
        Char.isWhitespace).reverse)

/-- The outbound `USER_TRANSCRIPT` frame built in the callback
(`timestamp: Date.now() / 1000`). -/
structure UserTranscriptOut where
  interview_id : String
  transcript : String
  timestamp : Nat
  deriving DecidableEq, Repr

/-- The `onTranscript` callback of InterviewRoom (lines 159-179): guard
`if (finalTranscript.trim())`, then send, append, and set state. Returns the
updated store and the frame sent, if any. -/
def onTranscript (interviewId : String) (now : Nat) (finalTranscript : String)
    (st : InterviewSession) : InterviewSession × Option UserTranscriptOut :=
  if jsTrim finalTranscript ≠ "" then
    ( setState InterviewState.PROCESSING_WITH_GEMINI
        (addTranscriptEntry
          { id := "user-" ++ toString now, role := Role.user,
            text := finalTranscript, timestamp := now } st),
      some { interview_id := interviewId, transcript := finalTranscript,
             timestamp := now / 1000 } )
  else (st, none)

/-- The `handleSilence` callback of useSpeechRecognition (lines 37-45): when
listening, it trims the accumulated final transcript and forwards it to
`onTranscript` only when the trimmed text is non-empty. The returned value is
the argument passed to `onTranscript`, or `none` when it is not called. -/
def handleSilence (isListening : Bool) (finalTranscriptRef : String) :
    Option String :=
  if isListening then
    let finalTranscript := jsTrim finalTranscriptRef
    if finalTranscript ≠ "" then some finalTranscript else none
  else none

/-! ## Session event runs (for the turn-list invariant) -/

/-- One externally visible session event on the client: delivery of an
`AI_QUESTION` frame, or a finalized candidate transcript reaching the
`onTranscript` callback. Each carries the wall-clock instant of processing. -/
inductive SessionEvent
  | question (q : String) (ts : Nat) (now : Nat)
  | answer (text : String) (now : Nat)
  deriving Repr

/-- Process one session event against the store. -/
def stepEvent (interviewId : String) (st : InterviewSession) :
    SessionEvent → InterviewSession
  | SessionEvent.question q ts now => handleMessage now (ServerMessage.aiQuestion q ts) st
  | SessionEvent.answer text now => (onTranscript interviewId now text st).1

/-- Process a list of session events in order. -/
def runSession (interviewId : String) (st : InterviewSession) :
    List SessionEvent → InterviewSession
  | [] => st
  | e :: es => runSession interviewId (stepEvent interviewId st e) es

/-- One completed question/answer cycle: a delivered question followed by a
finalized candidate answer. -/
structure QACycle where
  question : String
  qts : Nat
  qnow : Nat
  answer : String
  anow : Nat

/-- The event list of a sequence of completed cycles. -/
def cycleEvents : List QACycle → List SessionEvent
  | [] => []
  | c :: cs =>
      SessionEvent.question c.question c.qts c.qnow
        :: SessionEvent.answer c.answer c.anow :: cycleEvents cs

/-! ## Helper lemmas for session runs -/

theorem runSession_append (interviewId : String) (st : InterviewSession)
    (l₁ l₂ : List SessionEvent) :
    runSession interviewId st (l₁ ++ l₂)
      = runSession interviewId (runSession interviewId st l₁) l₂ := by
  induction l₁ generalizing st with
  | nil => rfl
  | cons e es ih => simp [runSession, ih]

theorem handleMessage_transcript_extends (now : Nat) (m : ServerMessage)
    (st : InterviewSession) :
    ∃ l, (handleMessage now m st).transcript = st.transcript ++ l := by
  cases m <;>
    simp [handleMessage, setState, addTranscriptEntry, endInterview, setError]

theorem onTranscript_transcript_extends (interviewId : String) (now : Nat)
    (text : String) (st : InterviewSession) :
    ∃ l, ((onTranscript interviewId now text st).1).transcript
      = st.transcript ++ l := by
  by_cases h : jsTrim text = ""
  · exact ⟨[], by simp [onTranscript, h]⟩
  · exact ⟨[{ id := "user-" ++ toString now, role := Role.user, text := text,
              timestamp := now }],
      by simp [onTranscript, h, setState, addTranscriptEntry]⟩

theorem runSession_cycles_length (interviewId : String) (st : InterviewSession)
    (cs : List QACycle) (h : ∀ c ∈ cs, jsTrim c.answer ≠ "") :
    (runSession interviewId st (cycleEvents cs)).transcript.length
      = st.transcript.length + 2 * cs.length := by
  induction cs generalizing st with
  | nil => simp [cycleEvents, runSession]
  | cons c cs ih =>
      have hc : jsTrim c.answer ≠ "" := h c (List.mem_cons_self c cs)
      have hrest : ∀ c' ∈ cs, jsTrim c'.answer ≠ "" :=
        fun c' hm => h c' (List.mem_cons_of_mem c hm)
      simp only [cycleEvents, runSession, stepEvent]
      rw [ih _ hrest]
      simp [handleMessage, setState, addTranscriptEntry, onTranscript, hc]
      ring

/-! ## Claim theorems for the client store and message handling -/

/-- C1: for every sequence of valid USER_TRANSCRIPT messages processed in a
session, the Turn/transcript list is strictly append-only (no entry is ever
mutated or removed once appended) and, until the terminal state, its length
equals twice the number of completed question/answer cycles plus one trailing
question. -/
theorem turn_list_append_only_and_cycle_length :
    (∀ (now : Nat) (m : ServerMessage) (st : InterviewSession),
        ∃ l, (handleMessage now m st).transcript = st.transcript ++ l) ∧
    (∀ (interviewId : String) (now : Nat) (text : String) (st : InterviewSession),
        ∃ l, ((onTranscript interviewId now text st).1).transcript
          = st.transcript ++ l) ∧
    (∀ (interviewId : String) (cs : List QACycle) (q : String) (ts now : Nat),
        (∀ c ∈ cs, jsTrim c.answer ≠ "") →
        (runSession interviewId (startInterview interviewId initialState)
            (cycleEvents cs ++ [SessionEvent.question q ts now])).transcript.length
          = 2 * cs.length + 1) := by
  refine ⟨handleMessage_transcript_extends, onTranscript_transcript_extends, ?_⟩
  intro interviewId cs q ts now h
  rw [runSession_append]
  simp only [runSession, stepEvent, handleMessage, setState, addTranscriptEntry,
    List.length_append, List.length_cons, List.length_nil]
  rw [runSession_cycles_length interviewId _ cs h]
  simp [startInterview, initialState]

/-- Witness for C1: a concrete run of two completed cycles plus a trailing
question yields a transcript of length five. -/
theorem turn_list_append_only_and_cycle_length_witness :
    (runSession "abc" (startInterview "abc" initialState)
        (cycleEvents
            [{ question := "q1", qts := 1, qnow := 1,
               answer := "I have 5 years experience", anow := 2 },
             { question := "q2", qts := 3, qnow := 3,
               answer := "I led a team of 4", anow := 4 }]
          ++ [SessionEvent.question "q3" 5 5])).transcript.length = 2 * 2 + 1 :=
  turn_list_append_only_and_cycle_length.2.2 "abc"
    [{ question := "q1", qts := 1, qnow := 1,
       answer := "I have 5 years experience", anow := 2 },
     { question := "q2", qts := 3, qnow := 3,
       answer := "I led a team of 4", anow := 4 }] "q3" 5 5 (by decide)

/-- C4 counterexample: the `endInterview` store action overwrites the stored
Outcome unconditionally, so a second end request with different arguments
replaces the feedback and score set by the first one, contradicting the claim
that the first Outcome is never overwritten. -/
theorem end_request_second_overwrites_outcome :
    (endInterview (some "b") (some 10)
        (endInterview (some "a") (some 90)
          (startInterview "abc" initialState))).feedback ≠ some "a" ∧
    (endInterview (some "b") (some 10)
        (endInterview (some "a") (some 90)
          (startInterview "abc" initialState))).feedback = some "b" ∧
    (endInterview (some "b") (some 10)
        (endInterview (some "a") (some 90)
          (startInterview "abc" initialState))).score = some 10 := by
  refine ⟨?_, rfl, rfl⟩
  decide

/-- C4 (amended): sending the explicit end request twice in sequence sets the
terminal state both times and stores the arguments of the most recent request;
repeating the same request is a no-op (idempotent for identical arguments,
which is what the UI end-button path sends), but a second request with
different feedback or score overwrites the Outcome of the first. -/
theorem end_request_idempotent_for_equal_arguments (feedback : Option String)
    (score : Option Int) (st : InterviewSession) :
    endInterview feedback score (endInterview feedback score st)
        = endInterview feedback score st ∧
    (endInterview feedback score st).state = InterviewState.INTERVIEW_ENDED ∧
    (endInterview feedback score st).feedback = feedback ∧
    (endInterview feedback score st).score = score :=
  ⟨rfl, rfl, rfl, rfl⟩

/-- C5: an `AI_QUESTION` delivered while the session is in the asking state
moves the state to `AI_SPEAKING` and appends exactly one interviewer turn
(the transcript is extended by a one-element list and nothing else changes
about it). -/
theorem ai_question_appends_one_interviewer_turn (now ts : Nat) (q : String)
    (st : InterviewSession) (_h : st.state = InterviewState.AI_ASKING) :
    (handleMessage now (ServerMessage.aiQuestion q ts) st).state
        = InterviewState.AI_SPEAKING ∧
    (handleMessage now (ServerMessage.aiQuestion q ts) st).transcript
      = st.transcript
          ++ [{ id := "ai-" ++ toString now, role := Role.ai, text := q,
                timestamp := ts }] :=
  ⟨rfl, rfl⟩

/-- Witness for C5 at a freshly started session, whose state is the asking
state. -/
theorem ai_question_appends_one_interviewer_turn_witness :
    (handleMessage 7 (ServerMessage.aiQuestion "Tell me about yourself." 6)
        (startInterview "abc" initialState)).state = InterviewState.AI_SPEAKING ∧
    (handleMessage 7 (ServerMessage.aiQuestion "Tell me about yourself." 6)
        (startInterview "abc" initialState)).transcript
      = (startInterview "abc" initialState).transcript
          ++ [{ id := "ai-" ++ toString 7, role := Role.ai,
                text := "Tell me about yourself.", timestamp := 6 }] :=
  ai_question_appends_one_interviewer_turn 7 6 "Tell me about yourself."
    (startInterview "abc" initialState) rfl

/-- C6: a candidate turn is appended and a USER_TRANSCRIPT frame is sent only
when the finalized transcript is non-empty after trimming; an empty-trimming
transcript sends nothing and appends nothing, and the silence path forwards a
transcript to the callback only when its trimmed text is non-empty. -/
theorem candidate_turn_requires_nonempty_trimmed_text (interviewId : String)
    (now : Nat) (text s : String) (isListening : Bool) (st : InterviewSession) :
    (jsTrim text = "" → onTranscript interviewId now text st = (st, none)) ∧
    (jsTrim text ≠ "" →
        ((onTranscript interviewId now text st).1).transcript
            = st.transcript
                ++ [{ id := "user-" ++ toString now, role := Role.user,
                      text := text, timestamp := now }] ∧
        (onTranscript interviewId now text st).2
            = some { interview_id := interviewId, transcript := text,
                     timestamp := now / 1000 }) ∧
    (jsTrim s = "" → handleSilence isListening s = none) := by
  refine ⟨?_, ?_, ?_⟩
  · intro h
    simp [onTranscript, h]
  · intro h
    constructor <;> simp [onTranscript, h, setState, addTranscriptEntry]
  · intro h
    cases isListening <;> simp [handleSilence, h]

/-- Witness for C6: a whitespace-only transcript is dropped by both the
callback and the silence path, while a real answer appends one candidate turn
and sends one frame. -/
theorem candidate_turn_requires_nonempty_trimmed_text_witness :
    onTranscript "abc" 9 "   " initialState = (initialState, none) ∧
    handleSilence true "   " = none ∧
    ((onTranscript "abc" 9 "I led a team of 4" initialState).1).transcript
        = initialState.transcript
            ++ [{ id := "user-" ++ toString 9, role := Role.user,
                  text := "I led a team of 4", timestamp := 9 }] ∧
    (onTranscript "abc" 9 "I led a team of 4" initialState).2
        = some { interview_id := "abc", transcript := "I led a team of 4",
                 timestamp := 9 / 1000 } :=
  ⟨(candidate_turn_requires_nonempty_trimmed_text "abc" 9 "   " "   " true
      initialState).1 (by decide),
   (candidate_turn_requires_nonempty_trimmed_text "abc" 9 "   " "   " true
      initialState).2.2 (by decide),
   ((candidate_turn_requires_nonempty_trimmed_text "abc" 9 "I led a team of 4"
      "   " true initialState).2.1 (by decide)).1,
   ((candidate_turn_requires_nonempty_trimmed_text "abc" 9 "I led a team of 4"
      "   " true initialState).2.1 (by decide)).2⟩

/-- C7 counterexample: a parsed frame whose type string is outside the handled
set falls through the switch silently, so no error notice is produced for it
(the claim asserts one always is); the session is left unchanged. -/
theorem unknown_message_produces_no_error_notice :
    (onMessageEvent 0 (some (ServerMessage.otherType "BOGUS"))
        (startInterview "abc" initialState)).2 = false ∧
    (onMessageEvent 0 (some (ServerMessage.otherType "BOGUS"))
        (startInterview "abc" initialState)).1
      = startInterview "abc" initialState :=
  ⟨rfl, rfl⟩

/-- C7 (amended): a malformed (unparseable) frame invokes the error callback
and leaves the session state entirely unchanged; a frame whose type is outside
the handled message-kind set is ignored silently, likewise leaving the state
unchanged and appending no transcript entry. -/
theorem malformed_or_unknown_message_leaves_state (now : Nat)
    (st : InterviewSession) (ty tr : String) :
    onMessageEvent now none st = (st, true) ∧
    onMessageEvent now (some (ServerMessage.otherType ty)) st = (st, false) ∧
    onMessageEvent now (some (ServerMessage.userTranscriptEcho tr)) st
        = (st, false) ∧
    onMessageEvent now (some (ServerMessage.connectionAck tr)) st
        = (st, false) :=
  ⟨rfl, rfl, rfl, rfl⟩

/-! ## Silence detector (frontend/src/utils/silenceDetection.ts)

The `SilenceDetector` class is embedded as a record with discrete wall-clock
time. A pending `setTimeout` is represented by its deadline: the instant the
timer was (re)set plus `silenceTimeout`; the runtime may run the callback at
any instant at or after the deadline, and clearing the timer removes the
deadline. -/

/-- The fields of the `SilenceDetector` class. `silenceTimer` holds the
deadline of the pending timeout, if one is pending. -/
structure SilenceDetectorState where
  silenceTimeout : Nat
  minSpeechDuration : Nat
  silenceTimer : Option Nat
  speechStartTime : Option Nat
  isActive : Bool
  deriving DecidableEq, Repr

/-- The constructor with the given options (defaults: 2500 and 500). -/
def SilenceDetector.new (silenceTimeout minSpeechDuration : Nat) :
    SilenceDetectorState :=
  { silenceTimeout := silenceTimeout, minSpeechDuration := minSpeechDuration,
    silenceTimer := none, speechStartTime := none, isActive := false }

/-- `resetSilenceTimer` at instant `now`: clear any pending timer and schedule
a new one `silenceTimeout` milliseconds ahead. -/
def resetSilenceTimer (now : Nat) (d : SilenceDetectorState) :
    SilenceDetectorState :=
  { d with silenceTimer := some (now + d.silenceTimeout) }

/-- `start()` at instant `now`: become active, record the speech start time,
and reset the silence timer. -/
def SilenceDetector.start (now : Nat) (d : SilenceDetectorState) :
    SilenceDetectorState :=
  resetSilenceTimer now { d with isActive := true, speechStartTime := some now }

/-- `onSpeech()` at instant `now`: when active, reset the silence timer;
otherwise return immediately. -/
def SilenceDetector.onSpeech (now : Nat) (d : SilenceDetectorState) :
    SilenceDetectorState :=
  if d.isActive then resetSilenceTimer now d else d

/-- `stop()`: deactivate and clear any pending timer. -/
def SilenceDetector.stop (d : SilenceDetectorState) : SilenceDetectorState :=
  { d with isActive := false, silenceTimer := none }

/-- The body of the `setTimeout` callback inside `resetSilenceTimer`, run by
the runtime at instant `now`. It can only run while the timer is pending and
`now` is at or past its deadline, and running consumes the timer. The body
returns early when the detector is no longer active; JS truthiness of
`this.speechStartTime` is kept (a stored 0 is falsy), and the duration
comparison `Date.now() - this.speechStartTime >= this.minSpeechDuration` is
taken over the integers. Returns the new state and whether
`onSilenceDetected` was invoked. -/
def fireTimer (now : Nat) (d : SilenceDetectorState) :
    SilenceDetectorState × Bool :=
  match d.silenceTimer with
  | none => (d, false)
  | some deadline =>
      if deadline ≤ now then
        let d' : SilenceDetectorState := { d with silenceTimer := none }
        if d.isActive then
          match d.speechStartTime with
          | some s =>
              if s ≠ 0 ∧ (d.minSpeechDuration : Int) ≤ (now : Int) - (s : Int)
              then (d', true) else (d', false)
          | none => (d', false)
        else (d', false)
      else (d, false)

/-- An external event applied to a silence detector: a call of `start`,
`onSpeech` or `stop`, or the runtime running the pending timer callback. -/
inductive DetectorEvent
  | start (now : Nat)
  | speech (now : Nat)
  | stop
  | timer (now : Nat)
  deriving DecidableEq, Repr

/-- Apply one event; the flag reports whether `onSilenceDetected` was
invoked during the event. -/
def detectorStep (d : SilenceDetectorState) :
    DetectorEvent → SilenceDetectorState × Bool
  | DetectorEvent.start now => (SilenceDetector.start now d, false)
  | DetectorEvent.speech now => (SilenceDetector.onSpeech now d, false)
  | DetectorEvent.stop => (SilenceDetector.stop d, false)
  | DetectorEvent.timer now => fireTimer now d

/-- Apply a list of events in order. -/
def runDetector (d : SilenceDetectorState) :
    List DetectorEvent → SilenceDetectorState
  | [] => d
  | e :: es => runDetector (detectorStep d e).1 es

/-- Trace bookkeeping: fold over the events the pair of (is the detector
between a `start` and a `stop`, time of the last speech event the detector
accepted). A `speech` while inactive is ignored, as `onSpeech` returns
early. -/
def speechFold (p : Bool × Option Nat) : DetectorEvent → Bool × Option Nat
  | DetectorEvent.start t => (true, some t)
  | DetectorEvent.speech t => (p.1, if p.1 then some t else p.2)
  | DetectorEvent.stop => (false, p.2)
  | DetectorEvent.timer _ => p

/-- The (active, last-accepted-speech-time) view of a trace. -/
def traceSpeech (evts : List DetectorEvent) : Bool × Option Nat :=
  evts.foldl speechFold (false, none)

/-- The time of the last `start` in a trace. -/
def lastStartTime (evts : List DetectorEvent) : Option Nat :=
  evts.foldl
    (fun s e => match e with | DetectorEvent.start t => some t | _ => s) none

/-- The invariant tying a detector state to its trace view: configuration is
preserved, activity and speech start mirror the trace, and a pending deadline
is exactly the last accepted speech event plus the configured timeout. -/
def DetectorInv (T M : Nat) (d : SilenceDetectorState) (p : Bool × Option Nat)
    (s0 : Option Nat) : Prop :=
  d.silenceTimeout = T ∧ d.minSpeechDuration = M ∧ d.isActive = p.1 ∧
  d.speechStartTime = s0 ∧
  ∀ dl, d.silenceTimer = some dl → ∃ e, p.2 = some e ∧ dl = e + T

theorem fireTimer_state_cases (now : Nat) (d : SilenceDetectorState) :
    (fireTimer now d).1 = d ∨
    (fireTimer now d).1 = { d with silenceTimer := none } := by
  obtain ⟨T', M', tm, ss, act⟩ := d
  cases tm with
  | none => exact Or.inl rfl
  | some dl =>
      by_cases hle : dl ≤ now
      · right
        cases act with
        | false => simp [fireTimer, hle]
        | true =>
            cases ss with
            | none => simp [fireTimer, hle]
            | some s =>
                simp only [fireTimer, hle, if_true]
                split <;> rfl
      · exact Or.inl (by simp [fireTimer, hle])

theorem fireTimer_fired (now : Nat) (d : SilenceDetectorState)
    (h : (fireTimer now d).2 = true) :
    d.isActive = true ∧
    (∃ dl, d.silenceTimer = some dl ∧ dl ≤ now) ∧
    (∃ s, d.speechStartTime = some s ∧ s ≠ 0 ∧
      (d.minSpeechDuration : Int) ≤ (now : Int) - (s : Int)) := by
  obtain ⟨T', M', tm, ss, act⟩ := d
  cases tm with
  | none => simp [fireTimer] at h
  | some dl =>
      by_cases hle : dl ≤ now
      · cases act with
        | false => simp [fireTimer, hle] at h
        | true =>
            cases ss with
            | none => simp [fireTimer, hle] at h
            | some s =>
                simp only [fireTimer, hle, if_true] at h
                by_cases hc : s ≠ 0 ∧ (M' : Int) ≤ (now : Int) - (s : Int)
                · exact ⟨rfl, ⟨dl, rfl, hle⟩, ⟨s, rfl, hc.1, hc.2⟩⟩
                · simp [hc] at h
      · simp [fireTimer, hle] at h

theorem detectorStep_preserves_inv (T M : Nat) (d : SilenceDetectorState)
    (p : Bool × Option Nat) (s0 : Option Nat) (e : DetectorEvent)
    (h : DetectorInv T M d p s0) :
    DetectorInv T M (detectorStep d e).1 (speechFold p e)
      (match e with | DetectorEvent.start t => some t | _ => s0) := by
  obtain ⟨hT, hM, hA, hS, hD⟩ := h
  cases e with
  | start t =>
      refine ⟨hT, hM, rfl, rfl, ?_⟩
      intro dl hdl
      simp only [detectorStep, SilenceDetector.start, resetSilenceTimer,
        Option.some.injEq] at hdl
      exact ⟨t, rfl, by rw [← hdl, hT]⟩
  | speech t =>
      by_cases ha : d.isActive
      · have hstep : (detectorStep d (DetectorEvent.speech t)).1
            = { d with silenceTimer := some (t + d.silenceTimeout) } := by
          simp [detectorStep, SilenceDetector.onSpeech, ha, resetSilenceTimer]
        have hp1 : p.1 = true := hA ▸ ha
        rw [hstep]
        refine ⟨hT, hM, by simpa [speechFold] using hA, hS, ?_⟩
        intro dl hdl
        simp only [Option.some.injEq] at hdl
        exact ⟨t, by simp [speechFold, hp1], by rw [← hdl, hT]⟩
      · have hstep : (detectorStep d (DetectorEvent.speech t)).1 = d := by
          simp [detectorStep, SilenceDetector.onSpeech, ha]
        have hp1 : p.1 = false := by
          rw [← hA]; exact Bool.not_eq_true _ ▸ eq_false_of_ne_true ha
        rw [hstep]
        refine ⟨hT, hM, by simp [speechFold, hA], hS, ?_⟩
        intro dl hdl
        obtain ⟨e', he', hdl'⟩ := hD dl hdl
        exact ⟨e', by simp [speechFold, hp1, he'], hdl'⟩
  | stop =>
      refine ⟨hT, hM, rfl, hS, ?_⟩
      intro dl hdl
      simp [detectorStep, SilenceDetector.stop] at hdl
  | timer t =>
      have hview : speechFold p (DetectorEvent.timer t) = p := rfl
      rw [hview]
      rcases fireTimer_state_cases t d with hst | hst <;>
        simp only [detectorStep] <;> rw [hst]
      · exact ⟨hT, hM, hA, hS, hD⟩
      · refine ⟨hT, hM, hA, hS, ?_⟩
        intro dl hdl
        simp at hdl

theorem runDetector_inv (T M : Nat) (evts : List DetectorEvent) :
    DetectorInv T M (runDetector (SilenceDetector.new T M) evts)
      (traceSpeech evts) (lastStartTime evts) := by
  suffices h : ∀ (d : SilenceDetectorState) (p : Bool × Option Nat)
      (s0 : Option Nat), DetectorInv T M d p s0 →
      DetectorInv T M (runDetector d evts) (evts.foldl speechFold p)
        (evts.foldl
          (fun s e => match e with | DetectorEvent.start t => some t | _ => s)
          s0) by
    exact h (SilenceDetector.new T M) (false, none) none
      ⟨rfl, rfl, rfl, rfl, fun dl hdl => by simp [SilenceDetector.new] at hdl⟩
  induction evts with
  | nil => intro d p s0 h; exact h
  | cons e es ih =>
      intro d p s0 h
      exact ih _ _ _ (detectorStep_preserves_inv T M d p s0 e h)

/-- C9: the silence detector invokes `onSilenceDetected` only while active
(between a `start` and a `stop`, so never after `stop()`), only at an instant
at least `silenceTimeout` past the last speech event it accepted, and only
when at least `minSpeechDuration` has elapsed since the recorded start. -/
theorem silence_callback_only_when_due (T M : Nat)
    (evts : List DetectorEvent) (now : Nat)
    (h : (detectorStep (runDetector (SilenceDetector.new T M) evts)
            (DetectorEvent.timer now)).2 = true) :
    (traceSpeech evts).1 = true ∧
    (∃ e, (traceSpeech evts).2 = some e ∧ e + T ≤ now) ∧
    (∃ s, lastStartTime evts = some s ∧ s ≠ 0 ∧
      (M : Int) ≤ (now : Int) - (s : Int)) := by
  obtain ⟨hT, hM, hA, hS, hD⟩ := runDetector_inv T M evts
  obtain ⟨hact, ⟨dl, hdt, hle⟩, ⟨s, hss, hs0, hdur⟩⟩ :=
    fireTimer_fired now (runDetector (SilenceDetector.new T M) evts) h
  obtain ⟨e, he, hdle⟩ := hD dl hdt
  refine ⟨by rw [← hA, hact], ⟨e, he, ?_⟩, ⟨s, hS.symm.trans hss, hs0, ?_⟩⟩
  · omega
  · rw [← hM]; exact hdur

/-- Witness for C9: a detector started at instant 1 with a speech event at
instant 100 fires at instant 2600, which is active, at least 2500 past the
last speech event, and at least 500 past the start. -/
theorem silence_callback_only_when_due_witness :
    (traceSpeech [DetectorEvent.start 1, DetectorEvent.speech 100]).1 = true ∧
    (∃ e, (traceSpeech [DetectorEvent.start 1, DetectorEvent.speech 100]).2
        = some e ∧ e + 2500 ≤ 2600) ∧
    (∃ s, lastStartTime [DetectorEvent.start 1, DetectorEvent.speech 100]
        = some s ∧ s ≠ 0 ∧ (500 : Int) ≤ (2600 : Int) - (s : Int)) :=
  silence_callback_only_when_due 2500 500
    [DetectorEvent.start 1, DetectorEvent.speech 100] 2600 (by decide)

/-! ## Connection lifecycle and reconnect policy (frontend/src/hooks/useWebSocket.ts)

The refs (`reconnectAttemptsRef`, `shouldReconnectRef`,
`reconnectTimeoutRef`) and the `isConnected` / `connectionError` state of the
hook are embedded as a record; the `onopen`, `onclose` and `disconnect`
handlers become functions on it. A pending reconnect `setTimeout` is the
boolean `reconnectTimerPending`. -/

/-- The hook state relevant to reconnection. -/
structure WSClientState where
  isConnected : Bool
  reconnectAttempts : Nat
  shouldReconnect : Bool
  reconnectTimerPending : Bool
  connectionError : Option String
  deriving DecidableEq, Repr

/-- The initial hook state: `useState(false)`, `useRef(0)`, `useRef(true)`,
no pending timer, no error. -/
def initWSClient : WSClientState :=
  { isConnected := false, reconnectAttempts := 0, shouldReconnect := true,
    reconnectTimerPending := false, connectionError := none }

/-- `ws.onopen` (lines 56-63). -/
def onOpen (st : WSClientState) : WSClientState :=
  { st with
      isConnected := true, connectionError := none, reconnectAttempts := 0,
      shouldReconnect := true }

/-- A WebSocket close event: `event.wasClean`, `event.code`, `event.reason`. -/
structure CloseEvent where
  wasClean : Bool
  code : Nat
  reason : String
  deriving DecidableEq, Repr

/-- The error message chosen for an unclean close (lines 124-133);
`event.reason` is truthy exactly when non-empty. -/
def closeErrorMsg (code : Nat) (reason : String) : String :=
  if code = 1006 then
    "Connection closed unexpectedly. Please ensure the backend server is running."
  else if code = 1001 then
    "Server is going away. Please check backend logs."
  else if reason ≠ "" then
    "Connection error: " ++ reason
  else
    "WebSocket connection error"

/-- The message of the final error raised once the attempt limit is hit
(line 150); it is stored in `connectionError` and also pushed into the
interview store through `setError`. -/
def reconnectFailedMsg : String :=
  "Failed to reconnect after multiple attempts. Please refresh the page."

/-- `ws.onclose` (lines 118-154). Returns the new hook state and whether a
reconnect attempt was scheduled (`setTimeout(connect, reconnectInterval)`). -/
def onClose (maxReconnectAttempts : Nat) (ev : CloseEvent)
    (st : WSClientState) : WSClientState × Bool :=
  let st1 : WSClientState :=
    { st with
        isConnected := false,
        connectionError :=
          if ¬ev.wasClean ∧ ev.code ≠ 1000 then
            some (closeErrorMsg ev.code ev.reason)
          else st.connectionError }
  if st.shouldReconnect ∧ st.reconnectAttempts < maxReconnectAttempts then
    ({ st1 with
         reconnectAttempts := st.reconnectAttempts + 1,
         reconnectTimerPending := true }, true)
  else if maxReconnectAttempts ≤ st.reconnectAttempts then
    ({ st1 with connectionError := some reconnectFailedMsg }, false)
  else (st1, false)

/-- `disconnect` (lines 176-186): suppress reconnection and clear any
pending reconnect timer (the socket close it triggers arrives later as a
separate close event). -/
def wsDisconnect (st : WSClientState) : WSClientState :=
  { st with shouldReconnect := false, reconnectTimerPending := false }

/-- Process a run of consecutive close events (no intervening successful
open), counting how many reconnect attempts get scheduled. -/
def closeRun (maxReconnectAttempts : Nat) (st : WSClientState) :
    List CloseEvent → WSClientState × Nat
  | [] => (st, 0)
  | ev :: evs =>
      let r := onClose maxReconnectAttempts ev st
      let rest := closeRun maxReconnectAttempts r.1 evs
      (rest.1, (if r.2 then 1 else 0) + rest.2)

theorem onClose_shouldReconnect (maxReconnectAttempts : Nat) (ev : CloseEvent)
    (st : WSClientState) :
    ((onClose maxReconnectAttempts ev st).1).shouldReconnect
      = st.shouldReconnect := by
  by_cases h1 : ¬ev.wasClean = true ∧ ev.code ≠ 1000 <;>
  by_cases h2 : st.shouldReconnect = true ∧
      st.reconnectAttempts < maxReconnectAttempts <;>
  by_cases h3 : maxReconnectAttempts ≤ st.reconnectAttempts <;>
  simp [onClose, h1, h2, h3]

theorem onClose_attempts_true (maxReconnectAttempts : Nat) (ev : CloseEvent)
    (st : WSClientState) (h : (onClose maxReconnectAttempts ev st).2 = true) :
    ((onClose maxReconnectAttempts ev st).1).reconnectAttempts
      = st.reconnectAttempts + 1 := by
  by_cases h1 : ¬ev.wasClean = true ∧ ev.code ≠ 1000 <;>
  by_cases h2 : st.shouldReconnect = true ∧
      st.reconnectAttempts < maxReconnectAttempts <;>
  by_cases h3 : maxReconnectAttempts ≤ st.reconnectAttempts <;>
  simp [onClose, h1, h2, h3] at h ⊢

theorem onClose_attempts_false (maxReconnectAttempts : Nat) (ev : CloseEvent)
    (st : WSClientState) (h : (onClose maxReconnectAttempts ev st).2 = false) :
    ((onClose maxReconnectAttempts ev st).1).reconnectAttempts
      = st.reconnectAttempts := by
  by_cases h1 : ¬ev.wasClean = true ∧ ev.code ≠ 1000 <;>
  by_cases h2 : st.shouldReconnect = true ∧
      st.reconnectAttempts < maxReconnectAttempts <;>
  by_cases h3 : maxReconnectAttempts ≤ st.reconnectAttempts <;>
  simp [onClose, h1, h2, h3] at h ⊢

theorem onClose_not_sched (maxReconnectAttempts : Nat) (ev : CloseEvent)
    (st : WSClientState)
    (h : ¬(st.shouldReconnect = true ∧
            st.reconnectAttempts < maxReconnectAttempts)) :
    (onClose maxReconnectAttempts ev st).2 = false := by
  by_cases h1 : ¬ev.wasClean = true ∧ ev.code ≠ 1000 <;>
  by_cases h3 : maxReconnectAttempts ≤ st.reconnectAttempts <;>
  simp [onClose, h1, h, h3]

theorem closeRun_sched_le (maxReconnectAttempts : Nat) (st : WSClientState)
    (evs : List CloseEvent) :
    (closeRun maxReconnectAttempts st evs).2
      ≤ maxReconnectAttempts - st.reconnectAttempts := by
  induction evs generalizing st with
  | nil => simp [closeRun]
  | cons ev evs ih =>
      simp only [closeRun]
      cases hs : (onClose maxReconnectAttempts ev st).2 with
      | true =>
          have hlt : st.reconnectAttempts < maxReconnectAttempts := by
            by_contra hge
            have hns := onClose_not_sched maxReconnectAttempts ev st
              (fun hc => hge hc.2)
            rw [hns] at hs
            exact Bool.false_ne_true hs
          have hih := ih ((onClose maxReconnectAttempts ev st).1)
          rw [onClose_attempts_true maxReconnectAttempts ev st hs] at hih
          simp only [hs, if_true]
          omega
      | false =>
          have hih := ih ((onClose maxReconnectAttempts ev st).1)
          rw [onClose_attempts_false maxReconnectAttempts ev st hs] at hih
          simp only [hs, Bool.false_eq_true, if_false]
          omega

theorem closeRun_no_reconnect (maxReconnectAttempts : Nat)
    (st : WSClientState) (evs : List CloseEvent)
    (h : st.shouldReconnect = false) :
    (closeRun maxReconnectAttempts st evs).2 = 0 := by
  induction evs generalizing st with
  | nil => rfl
  | cons ev evs ih =>
      simp only [closeRun]
      have h2 : (onClose maxReconnectAttempts ev st).2 = false :=
        onClose_not_sched maxReconnectAttempts ev st
          (fun hc => by rw [h] at hc; exact Bool.false_ne_true hc.1)
      rw [h2, ih _ ((onClose_shouldReconnect maxReconnectAttempts ev st).trans h)]
      simp

/-- C10: the client schedules at most `maxReconnectAttempts` consecutive
reconnect attempts after disconnects; a close arriving once the limit is
reached schedules nothing and surfaces the final error message; and after an
explicit `disconnect()` no reconnect is ever scheduled by any number of
subsequent close events. -/
theorem reconnect_attempts_bounded (maxReconnectAttempts : Nat)
    (evs : List CloseEvent) (ev : CloseEvent) (st : WSClientState) :
    (closeRun maxReconnectAttempts initWSClient evs).2
        ≤ maxReconnectAttempts ∧
    (maxReconnectAttempts ≤ st.reconnectAttempts →
        (onClose maxReconnectAttempts ev st).2 = false ∧
        ((onClose maxReconnectAttempts ev st).1).connectionError
          = some reconnectFailedMsg) ∧
    ((wsDisconnect st).shouldReconnect = false ∧
     (wsDisconnect st).reconnectTimerPending = false ∧
     (closeRun maxReconnectAttempts (wsDisconnect st) evs).2 = 0) := by
  refine ⟨?_, ?_, rfl, rfl, closeRun_no_reconnect _ _ _ rfl⟩
  · simpa [initWSClient] using
      closeRun_sched_le maxReconnectAttempts initWSClient evs
  · intro hge
    refine ⟨onClose_not_sched maxReconnectAttempts ev st (fun hc => by omega), ?_⟩
    have h2 : ¬(st.shouldReconnect = true ∧
        st.reconnectAttempts < maxReconnectAttempts) := fun hc => by omega
    by_cases h1 : ¬ev.wasClean = true ∧ ev.code ≠ 1000 <;>
      simp [onClose, h1, h2, hge]

/-- Witness for C10: with the default limit of 5, seven consecutive unclean
closes schedule at most five reconnects, a close at the limit surfaces the
final error without scheduling, and no close after a `disconnect()` schedules
anything. -/
theorem reconnect_attempts_bounded_witness :
    (closeRun 5 initWSClient
        (List.replicate 7 { wasClean := false, code := 1006, reason := "" })).2
        ≤ 5 ∧
    ((onClose 5 { wasClean := false, code := 1006, reason := "" }
        { isConnected := false, reconnectAttempts := 5, shouldReconnect := true,
          reconnectTimerPending := false, connectionError := none }).2 = false ∧
      ((onClose 5 { wasClean := false, code := 1006, reason := "" }
        { isConnected := false, reconnectAttempts := 5, shouldReconnect := true,
          reconnectTimerPending := false, connectionError := none }).1).connectionError
        = some reconnectFailedMsg) ∧
    (closeRun 5
        (wsDisconnect
          { isConnected := true, reconnectAttempts := 0, shouldReconnect := true,
            reconnectTimerPending := false, connectionError := none })
        (List.replicate 7 { wasClean := false, code := 1006, reason := "" })).2
      = 0 := by
  have h := reconnect_attempts_bounded 5
    (List.replicate 7 { wasClean := false, code := 1006, reason := "" })
    { wasClean := false, code := 1006, reason := "" }
    { isConnected := false, reconnectAttempts := 5, shouldReconnect := true,
      reconnectTimerPending := false, connectionError := none }
  have h2 := reconnect_attempts_bounded 5
    (List.replicate 7 { wasClean := false, code := 1006, reason := "" })
    { wasClean := false, code := 1006, reason := "" }
    { isConnected := true, reconnectAttempts := 0, shouldReconnect := true,
      reconnectTimerPending := false, connectionError := none }
  exact ⟨h.1, h.2.1 (by decide), h2.2.2.2.2⟩

/-! ## Session Registry and reattachment

Modelled from the spec: the backend registry and protocol handler
(`backend/app/websocket_manager.py`, `backend/app/main.py`) are not part of
the source tree — only this frontend, which connects to `/ws/\x7binterview_id\x7d`,
consumes them — so the attach logic is taken from sections 3, 4.4 and 4.5 of
the design document. -/

/-- Outbound protocol frames the handler can emit while attaching. -/
inductive OutboundMsg
  | connectionAck
  | stateNotice (state : InterviewState)
  | aiQuestion (question : String)
  deriving DecidableEq, Repr

/-- Modelled from the spec: the server-side Session record of section 3 —
identifier, current state, and the questions already delivered to the
client. -/
structure ServerSession where
  sessionId : String
  state : InterviewState
  deliveredQuestions : List String
  deriving DecidableEq, Repr

/-- Modelled from the spec: the Registry mapping of session identifier to
Session (section 4.4). -/
structure Registry where
  sessions : List (String × ServerSession)
  deriving DecidableEq, Repr

/-- Registry lookup by identifier. -/
def Registry.find (reg : Registry) (id : String) : Option ServerSession :=
  (reg.sessions.find? (fun p => p.1 == id)).map Prod.snd

/-- Modelled from the spec: attaching a connection presenting an interview
id (sections 3 and 4.5). On a fresh identifier the handler creates the
Session, has the router generate the first question, emits it and records it
as delivered; on a known identifier it must reattach to the existing Session,
emitting only the acknowledgment and the current state — reattachment is
idempotent and must not replay already-delivered questions. Returns the new
registry, the session attached to, and the emitted frames. -/
def attach (reg : Registry) (id : String) (firstQuestion : String) :
    Registry × ServerSession × List OutboundMsg :=
  match Registry.find reg id with
  | some s =>
      (reg, s, [OutboundMsg.connectionAck, OutboundMsg.stateNotice s.state])
  | none =>
      let s : ServerSession :=
        { sessionId := id, state := InterviewState.AI_SPEAKING,
          deliveredQuestions := [firstQuestion] }
      ({ sessions := reg.sessions ++ [(id, s)] }, s,
       [OutboundMsg.connectionAck, OutboundMsg.stateNotice s.state,
        OutboundMsg.aiQuestion firstQuestion])

/-- C2: a reconnection presenting a known interview id reattaches to the
existing session — the registry is unchanged and the stored session is
returned — and the emitted frames contain no AI_QUESTION at all, so no
already-delivered question is ever emitted a second time. -/
theorem reattach_never_replays_question (reg : Registry) (id : String)
    (firstQuestion : String) (s : ServerSession)
    (h : Registry.find reg id = some s) :
    (attach reg id firstQuestion).1 = reg ∧
    (attach reg id firstQuestion).2.1 = s ∧
    ∀ q, OutboundMsg.aiQuestion q ∉ (attach reg id firstQuestion).2.2 := by
  unfold attach
  rw [h]
  refine ⟨rfl, rfl, ?_⟩
  intro q hq
  simp at hq

/-- Witness for C2: reattaching to a registry that already holds session
`"abc"` (with one delivered question) re-emits nothing and leaves the
registry as it was. -/
theorem reattach_never_replays_question_witness :
    (attach
        { sessions := [("abc",
            { sessionId := "abc", state := InterviewState.AI_SPEAKING,
              deliveredQuestions := ["Tell me about yourself."] })] }
        "abc" "q2").1
      = { sessions := [("abc",
            { sessionId := "abc", state := InterviewState.AI_SPEAKING,
              deliveredQuestions := ["Tell me about yourself."] })] } ∧
    (attach
        { sessions := [("abc",
            { sessionId := "abc", state := InterviewState.AI_SPEAKING,
              deliveredQuestions := ["Tell me about yourself."] })] }
        "abc" "q2").2.1
      = { sessionId := "abc", state := InterviewState.AI_SPEAKING,
          deliveredQuestions := ["Tell me about yourself."] } ∧
    ∀ q, OutboundMsg.aiQuestion q ∉
      (attach
        { sessions := [("abc",
            { sessionId := "abc", state := InterviewState.AI_SPEAKING,
              deliveredQuestions := ["Tell me about yourself."] })] }
        "abc" "q2").2.2 :=
  reattach_never_replays_question
    { sessions := [("abc",
        { sessionId := "abc", state := InterviewState.AI_SPEAKING,
          deliveredQuestions := ["Tell me about yourself."] })] }
    "abc" "q2"
    { sessionId := "abc", state := InterviewState.AI_SPEAKING,
      deliveredQuestions := ["Tell me about yourself."] }
    (by decide)

/-! ## AI Service Router

Modelled from the spec: the router (`backend/app/gemini_service.py` and its
provider clients) is absent from the source tree, so `route` follows section
4.2 of the design document. -/

/-- Modelled from the spec: the outcome of one provider generation call
(section 4.1) — generated text, or Unavailable, Timeout, InvalidResponse. -/
inductive ProviderResult
  | success (text : String)
  | unavailable
  | timeout
  | invalidResponse
  deriving DecidableEq, Repr

/-- Modelled from the spec: one entry of the per-call preference list — a
provider name together with the outcome its stateless client yields for this
call. -/
structure ProviderCall where
  name : String
  result : ProviderResult
  deriving DecidableEq, Repr

/-- Modelled from the spec: `route` of section 4.2. Providers are attempted
in preference order; a failing attempt (Unavailable or Timeout, and per
section 7 also InvalidResponse) fails over to the next provider, no provider
being retried within the call; a success stops the scan and records the
provider that served the call, returning its text unchanged; an exhausted
list is AllProvidersFailed, surfaced as `none`. Returns the attempted
provider names in order and the outcome. -/
def route : List ProviderCall → List String × Option (String × String)
  | [] => ([], none)
  | p :: ps =>
      match p.result with
      | ProviderResult.success txt => ([p.name], some (p.name, txt))
      | _ =>
          let r := route ps
          (p.name :: r.1, r.2)

theorem route_attempts_take (ps : List ProviderCall) :
    ∃ k, (route ps).1 = (ps.map (fun c => c.name)).take k := by
  induction ps with
  | nil => exact ⟨0, rfl⟩
  | cons p ps ih =>
      obtain ⟨k, hk⟩ := ih
      cases hr : p.result with
      | success txt => exact ⟨1, by simp [route, hr]⟩
      | unavailable => exact ⟨k + 1, by simp [route, hr, hk]⟩
      | timeout => exact ⟨k + 1, by simp [route, hr, hk]⟩
      | invalidResponse => exact ⟨k + 1, by simp [route, hr, hk]⟩

/-- C3: when the primary provider fails with Unavailable or Timeout and the
fallback succeeds, the attempted providers are exactly the primary followed
by the fallback — one attempt against the primary before the fallback is
tried — exactly one successful call is recorded (served by the fallback,
text unchanged), and in general the attempts of a call are an initial
segment of the preference list, so no provider is attempted more than once
per call. -/
theorem router_failover_order (primary fallback : ProviderCall) (txt : String)
    (hp : primary.result = ProviderResult.unavailable ∨
          primary.result = ProviderResult.timeout)
    (hf : fallback.result = ProviderResult.success txt) :
    (route [primary, fallback]).1 = [primary.name, fallback.name] ∧
    (route [primary, fallback]).2 = some (fallback.name, txt) ∧
    ∀ ps : List ProviderCall, ∃ k,
      (route ps).1 = (ps.map (fun c => c.name)).take k := by
  rcases hp with hp | hp <;>
    exact ⟨by simp [route, hp, hf], by simp [route, hp, hf],
           route_attempts_take⟩

/-- Witness for C3: the default preference order, a dead local provider and
a healthy cloud fallback. -/
theorem router_failover_order_witness :
    (route [{ name := "local-model", result := ProviderResult.unavailable },
            { name := "cloud", result := ProviderResult.success "Next question" }]).1
      = ["local-model", "cloud"] ∧
    (route [{ name := "local-model", result := ProviderResult.unavailable },
            { name := "cloud", result := ProviderResult.success "Next question" }]).2
      = some ("cloud", "Next question") :=
  have h := router_failover_order
    { name := "local-model", result := ProviderResult.unavailable }
    { name := "cloud", result := ProviderResult.success "Next question" }
    "Next question" (Or.inl rfl) rfl
  ⟨h.1, h.2.1⟩

/-! ## Terminal outcome generation

Modelled from the spec: the backend feedback/score generation is absent from
the source tree; sections 3 and 8 of the design document constrain the
terminal Outcome. -/

/-- Modelled from the spec: normalisation of the raw provider reply into the
terminal Outcome of section 3 — a feedback text that is never empty (a fixed
fallback text replaces an empty reply) and a numeric score kept within
0-100. -/
def finalizeOutcome (rawFeedback : String) (rawScore : Int) : String × Int :=
  ( if jsTrim rawFeedback = "" then "Thank you for completing the interview."
    else rawFeedback,
    min 100 (max 0 rawScore) )

/-- C8: the terminal outcome delivered through INTERVIEW_END after a
completed interview carries a score in [0, 100] and a non-empty feedback
text, and the client session ends up terminal holding exactly these
values. -/
theorem interview_end_outcome_in_range (rawFeedback : String) (rawScore : Int)
    (now : Nat) (st : InterviewSession) :
    0 ≤ (finalizeOutcome rawFeedback rawScore).2 ∧
    (finalizeOutcome rawFeedback rawScore).2 ≤ 100 ∧
    (finalizeOutcome rawFeedback rawScore).1 ≠ "" ∧
    (handleMessage now
        (ServerMessage.interviewEnd (finalizeOutcome rawFeedback rawScore).1
          (some (finalizeOutcome rawFeedback rawScore).2)) st).feedback
      = some (finalizeOutcome rawFeedback rawScore).1 ∧
    (handleMessage now
        (ServerMessage.interviewEnd (finalizeOutcome rawFeedback rawScore).1
          (some (finalizeOutcome rawFeedback rawScore).2)) st).score
      = some (finalizeOutcome rawFeedback rawScore).2 ∧
    (handleMessage now
        (ServerMessage.interviewEnd (finalizeOutcome rawFeedback rawScore).1
          (some (finalizeOutcome rawFeedback rawScore).2)) st).state
      = InterviewState.INTERVIEW_ENDED := by
  refine ⟨le_min (by norm_num) (le_max_left 0 rawScore), min_le_left 100 _,
    ?_, rfl, rfl, rfl⟩
  by_cases h : jsTrim rawFeedback = ""
  · have hv : (finalizeOutcome rawFeedback rawScore).1
        = "Thank you for completing the interview." := by
      simp [finalizeOutcome, h]
    rw [hv]
    decide
  · have hv : (finalizeOutcome rawFeedback rawScore).1 = rawFeedback := by
      simp [finalizeOutcome, h]
    rw [hv]
    intro he
    exact h (by rw [he]; rfl)

end MockInterview
